import Mathlib

set_option maxRecDepth 4000

/-! Verification of the codemoder MCP adapter: a shallow embedding of the
proxy/wrapper front-end (src/proxy.rs, src/wrapper.rs), the script-runtime
result shaping and bridge formatting (src/runtime.rs), and the JSON-Schema
to TypeScript transducer (src/typescript.rs), together with theorems that
settle the specification claims. -/

/-- JSON values. Numbers are modelled as integers (the claims under study never
exercise fractional numerals). Objects are association lists kept in insertion
order. -/
inductive Json where
  | null : Json
  | bool (b : Bool) : Json
  | num (n : Int) : Json
  | str (s : String) : Json
  | arr (items : List Json) : Json
  | obj (fields : List (String × Json)) : Json

/-- Field lookup on a JSON value, mirroring serde_json Value::get: none on
anything that is not an object. -/
def Json.getField : Json → String → Option Json
  | .obj fields, key => (fields.find? (fun p => p.fst == key)).map (fun p => p.snd)
  | _, _ => none

/-- View a JSON value as a string, mirroring serde_json Value::as_str. -/
def Json.asStr : Json → Option String
  | .str s => some s
  | _ => none

/-- View a JSON value as an array, mirroring serde_json Value::as_array. -/
def Json.asArr : Json → Option (List Json)
  | .arr xs => some xs
  | _ => none

/-- View a JSON value as an object, mirroring serde_json Value::as_object. -/
def Json.asObj : Json → Option (List (String × Json))
  | .obj fs => some fs
  | _ => none

/-- Lookup in an association-list representation of a JSON object map,
mirroring serde_json Map::get. -/
def mapGet (m : List (String × Json)) (key : String) : Option Json :=
  (m.find? (fun p => p.fst == key)).map (fun p => p.snd)

/-- Lower-case hexadecimal digit, as used by serde_json string escapes. -/
def hexDigit (n : Nat) : String :=
  if n < 10 then String.singleton (Char.ofNat (48 + n))
  else String.singleton (Char.ofNat (87 + n))

/-- Escape one character of a JSON string literal. Modelled from the spec:
the serde_json escaping used by the source for to_string and
to_string_pretty. -/
def jsonEscapeChar (c : Char) : String :=
  if c = '"' then "\\\""
  else if c = '\\' then "\\\\"
  else if c = '\n' then "\\n"
  else if c = '\r' then "\\r"
  else if c = '\t' then "\\t"
  else if c.toNat = 8 then "\\b"
  else if c.toNat = 12 then "\\f"
  else if c.toNat < 32 then "\\u00" ++ hexDigit (c.toNat / 16) ++ hexDigit (c.toNat % 16)
  else String.singleton c

/-- Escape a whole JSON string body. -/
def jsonEscape (s : String) : String :=
  String.join (s.toList.map jsonEscapeChar)

/-- Compact JSON serialization. Modelled from the spec: serde_json to_string
as used by the source. -/
def jsonCompact : Json → String
  | .null => "null"
  | .bool true => "true"
  | .bool false => "false"
  | .num n => toString n
  | .str s => "\"" ++ jsonEscape s ++ "\""
  | .arr xs =>
      "[" ++ String.intercalate "," (xs.attach.map (fun x => jsonCompact x.1)) ++ "]"
  | .obj fs =>
      "\x7b" ++ String.intercalate ","
        (fs.attach.map (fun p =>
          "\"" ++ jsonEscape p.1.fst ++ "\":" ++ jsonCompact p.1.snd)) ++ "\x7d"
termination_by j => sizeOf j
decreasing_by
  · have := List.sizeOf_lt_of_mem x.2
    simp only [Json.arr.sizeOf_spec]
    omega
  · have h1 := List.sizeOf_lt_of_mem p.2
    have h2 : sizeOf p.1.snd < sizeOf p.1 := by
      obtain ⟨k, v⟩ := p.1
      simp
    simp only [Json.obj.sizeOf_spec]
    omega

/-- Indentation of the pretty serializer: two spaces per level. -/
def indentStr (n : Nat) : String := String.join (List.replicate n "  ")

/-- Pretty JSON serialization. Modelled from the spec: serde_json
to_string_pretty (two-space indent) as used by the source. -/
def jsonPrettyAt : Nat → Json → String
  | _, .null => "null"
  | _, .bool true => "true"
  | _, .bool false => "false"
  | _, .num n => toString n
  | _, .str s => "\"" ++ jsonEscape s ++ "\""
  | _, .arr [] => "[]"
  | lvl, .arr xs =>
      "[\n" ++ String.intercalate ",\n"
          (xs.attach.map (fun x => indentStr (lvl + 1) ++ jsonPrettyAt (lvl + 1) x.1))
        ++ "\n" ++ indentStr lvl ++ "]"
  | _, .obj [] => "\x7b\x7d"
  | lvl, .obj fs =>
      "\x7b\n" ++ String.intercalate ",\n"
          (fs.attach.map (fun p => indentStr (lvl + 1) ++ "\"" ++ jsonEscape p.1.fst ++ "\": "
            ++ jsonPrettyAt (lvl + 1) p.1.snd))
        ++ "\n" ++ indentStr lvl ++ "\x7d"
termination_by _ j => sizeOf j
decreasing_by
  · have := List.sizeOf_lt_of_mem x.2
    simp only [Json.arr.sizeOf_spec]
    omega
  · have h1 := List.sizeOf_lt_of_mem p.2
    have h2 : sizeOf p.1.snd < sizeOf p.1 := by
      obtain ⟨k, v⟩ := p.1
      simp
    simp only [Json.obj.sizeOf_spec]
    omega

/-- Pretty JSON serialization of a value, starting at indentation level zero. -/
def jsonPretty (j : Json) : String := jsonPrettyAt 0 j

/-- Whitespace as recognised by the JSON grammar. -/
def isJsonWs (c : Char) : Bool := c = ' ' || c = '\n' || c = '\r' || c = '\t'

/-- Skip leading JSON whitespace. -/
def skipWs : List Char → List Char
  | c :: rest => if isJsonWs c then skipWs rest else c :: rest
  | [] => []

/-- Value of one hexadecimal digit. -/
def hexVal (c : Char) : Option Nat :=
  if '0' ≤ c ∧ c ≤ '9' then some (c.toNat - 48)
  else if 'a' ≤ c ∧ c ≤ 'f' then some (c.toNat - 87)
  else if 'A' ≤ c ∧ c ≤ 'F' then some (c.toNat - 55)
  else none

/-- Body of a JSON string literal after the opening quote: returns the decoded
characters and the input after the closing quote. -/
def parseJStrChars : List Char → Option (List Char × List Char)
  | [] => none
  | '\\' :: e :: rest =>
      if e = '"' then (parseJStrChars rest).map (fun p => ('"' :: p.1, p.2))
      else if e = '\\' then (parseJStrChars rest).map (fun p => ('\\' :: p.1, p.2))
      else if e = '/' then (parseJStrChars rest).map (fun p => ('/' :: p.1, p.2))
      else if e = 'n' then (parseJStrChars rest).map (fun p => ('\n' :: p.1, p.2))
      else if e = 't' then (parseJStrChars rest).map (fun p => ('\t' :: p.1, p.2))
      else if e = 'r' then (parseJStrChars rest).map (fun p => ('\r' :: p.1, p.2))
      else if e = 'b' then (parseJStrChars rest).map (fun p => (Char.ofNat 8 :: p.1, p.2))
      else if e = 'f' then (parseJStrChars rest).map (fun p => (Char.ofNat 12 :: p.1, p.2))
      else if e = 'u' then
        match rest with
        | h1 :: h2 :: h3 :: h4 :: rest2 =>
            match hexVal h1, hexVal h2, hexVal h3, hexVal h4 with
            | some a, some b, some c, some d =>
                (parseJStrChars rest2).map
                  (fun p => (Char.ofNat (((a * 16 + b) * 16 + c) * 16 + d) :: p.1, p.2))
            | _, _, _, _ => none
        | _ => none
      else none
  | c :: rest =>
      if c = '"' then some ([], rest)
      else (parseJStrChars rest).map (fun p => (c :: p.1, p.2))

/-- Body of a JSON string literal, decoded to a string. -/
def parseJStr (input : List Char) : Option (String × List Char) :=
  (parseJStrChars input).map (fun p => (String.mk p.1, p.2))

/-- Digit run accumulated into a natural number. -/
def parseDigitsAcc : Nat → List Char → Nat × List Char
  | acc, c :: rest =>
      if c.isDigit then parseDigitsAcc (acc * 10 + (c.toNat - 48)) rest
      else (acc, c :: rest)
  | acc, [] => (acc, [])

/-- Integer JSON numeral (optional minus sign and a digit run). -/
def parseJNum : List Char → Option (Int × List Char)
  | '-' :: c :: rest =>
      if c.isDigit then
        let p := parseDigitsAcc (c.toNat - 48) rest
        some (-(Int.ofNat p.1), p.2)
      else none
  | c :: rest =>
      if c.isDigit then
        let p := parseDigitsAcc (c.toNat - 48) rest
        some (Int.ofNat p.1, p.2)
      else none
  | [] => none

/-- Opening curly brace character. -/
def lbraceC : Char := Char.ofNat 123

/-- Closing curly brace character. -/
def rbraceC : Char := Char.ofNat 125

/-- Pending composite during parsing: an array with the elements seen so far
(reversed), or an object member whose value is being parsed. -/
inductive JFrame where
  | arrF (acc : List Json) : JFrame
  | objF (acc : List (String × Json)) (key : String) : JFrame

/-- Parser state: expecting a value, holding a finished value, or expecting an
object member. -/
inductive JState where
  | expectVal (stack : List JFrame) (input : List Char) : JState
  | haveVal (stack : List JFrame) (v : Json) (input : List Char) : JState
  | expectMember (acc : List (String × Json)) (stack : List JFrame) (input : List Char) : JState

/-- One fuel-indexed run of the JSON parser stack machine. -/
def jpRun : Nat → JState → Option Json
  | 0, _ => none
  | fuel + 1, .expectVal stack input =>
      match skipWs input with
      | 'n' :: 'u' :: 'l' :: 'l' :: rest => jpRun fuel (.haveVal stack .null rest)
      | 't' :: 'r' :: 'u' :: 'e' :: rest => jpRun fuel (.haveVal stack (.bool true) rest)
      | 'f' :: 'a' :: 'l' :: 's' :: 'e' :: rest => jpRun fuel (.haveVal stack (.bool false) rest)
      | '"' :: rest =>
          (match parseJStr rest with
           | some (s, rest2) => jpRun fuel (.haveVal stack (.str s) rest2)
           | none => none)
      | '[' :: rest =>
          (match skipWs rest with
           | ']' :: rest2 => jpRun fuel (.haveVal stack (.arr []) rest2)
           | rest2 => jpRun fuel (.expectVal (JFrame.arrF [] :: stack) rest2))
      | c :: rest =>
          if c = lbraceC then
            match skipWs rest with
            | d :: rest2 =>
                if d = rbraceC then jpRun fuel (.haveVal stack (.obj []) rest2)
                else jpRun fuel (.expectMember [] stack (d :: rest2))
            | [] => none
          else
            (match parseJNum (c :: rest) with
             | some (n, rest2) => jpRun fuel (.haveVal stack (.num n) rest2)
             | none => none)
      | [] => none
  | fuel + 1, .haveVal stack v input =>
      match stack with
      | [] => if (skipWs input).isEmpty then some v else none
      | JFrame.arrF acc :: stack' =>
          (match skipWs input with
           | ',' :: rest => jpRun fuel (.expectVal (JFrame.arrF (v :: acc) :: stack') rest)
           | c :: rest =>
               if c = ']' then jpRun fuel (.haveVal stack' (.arr (v :: acc).reverse) rest)
               else none
           | [] => none)
      | JFrame.objF acc key :: stack' =>
          (match skipWs input with
           | ',' :: rest => jpRun fuel (.expectMember ((key, v) :: acc) stack' rest)
           | c :: rest =>
               if c = rbraceC then jpRun fuel (.haveVal stack' (.obj ((key, v) :: acc).reverse) rest)
               else none
           | [] => none)
  | fuel + 1, .expectMember acc stack input =>
      match skipWs input with
      | '"' :: rest =>
          (match parseJStr rest with
           | some (key, rest2) =>
               (match skipWs rest2 with
                | ':' :: rest3 => jpRun fuel (.expectVal (JFrame.objF acc key :: stack) rest3)
                | _ => none)
           | none => none)
      | _ => none

/-- Parse a JSON document. Modelled from the spec: the ECMAScript JSON.parse
exposed by the embedded engine, restricted to integer numerals (the fragment
the bridge exercises). -/
def jsParse (s : String) : Option Json :=
  jpRun (2 * s.length + 4) (.expectVal [] s.toList)

/-- ECMAScript truthiness of a property lookup result: an absent property,
null, false, zero and the empty string are falsy. Modelled from the spec:
the result.error test in the tools facade prologue. -/
def jsTruthy : Option Json → Bool
  | none => false
  | some .null => false
  | some (.bool b) => b
  | some (.num n) => !(n == 0)
  | some (.str s) => !(s == "")
  | some (.arr _) => true
  | some (.obj _) => true

/-- ECMAScript string coercion of a value, as performed by string
concatenation in the facade's thrown message. Modelled from the spec:
ECMAScript ToString on values arising from JSON.parse. -/
def jsToString : Json → String
  | .null => "null"
  | .bool true => "true"
  | .bool false => "false"
  | .num n => toString n
  | .str s => s
  | .arr xs =>
      String.intercalate ","
        (xs.attach.map (fun x =>
          match h : x.1 with
          | .null => ""
          | v => jsToString v))
  | .obj _ => "[object Object]"
termination_by j => sizeOf j
decreasing_by
  have hm := List.sizeOf_lt_of_mem x.2
  rw [h] at hm
  simp only [Json.arr.sizeOf_spec]
  omega

/-- Content item of an MCP CallToolResult. Text and image carry the payloads
the bridge inspects; other stands for every remaining content kind (audio,
resource, resource link), for which as_text and as_image are both none. -/
inductive ContentItem where
  | text (s : String) : ContentItem
  | image (data : String) (mimeType : String) : ContentItem
  | other : ContentItem

/-- MCP CallToolResult: ordered content plus the is_error flag. -/
structure CallToolResult where
  content : List ContentItem
  isError : Option Bool

/-- Serialization of one content item inside format_call_result
(src/runtime.rs): text as a JSON string, image as a typed object, anything
else as JSON null. -/
def contentItemJson : ContentItem → Json
  | .text s => .str s
  | .image data mimeType =>
      .obj [("type", .str "image"), ("data", .str data), ("mimeType", .str mimeType)]
  | .other => .null

/-- Embedding of format_call_result (src/runtime.rs): a single text content is
returned verbatim, anything else is serialized as a JSON array. -/
def format_call_result (result : CallToolResult) : String :=
  match result.content.map contentItemJson with
  | [Json.str s] => s
  | contents => jsonCompact (Json.arr contents)

/-- Embedding of the native __raw_tools function result (src/runtime.rs):
on caller success the formatted call result, on caller failure the literal
error object string produced by the format! interpolation (note: the message
is not JSON-escaped). -/
def rawToolCall (callerResult : Except String CallToolResult) : String :=
  match callerResult with
  | .ok callResult => format_call_result callResult
  | .error e => "\x7b\"error\": \"" ++ e ++ "\"\x7d"

/-- Outcome of one tools facade invocation as observed by script code. -/
inductive FacadeOutcome where
  | ret (v : Json) : FacadeOutcome
  | thrown (message : String) : FacadeOutcome

/-- Embedding of the tools facade prologue (src/runtime.rs tool_wrapper_code)
applied to the string returned by __raw_tools: JSON.parse with fallback to
the raw string, then a throw when the parsed value is an object whose error
property is truthy. -/
def toolsFacadeResult (toolName : String) (resultStr : String) : FacadeOutcome :=
  let result : Json :=
    match jsParse resultStr with
    | some v => v
    | none => .str resultStr
  match result with
  | .obj fields =>
      match (fields.find? (fun p => p.fst == "error")).map (fun p => p.snd) with
      | some errVal =>
          if jsTruthy (some errVal) then
            .thrown ("Tool " ++ toolName ++ " failed: " ++ jsToString errVal)
          else .ret result
      | none => .ret result
  | v => .ret v

/-- Execution result of the script runtime (src/runtime.rs). -/
structure ExecutionResult where
  value : Json
  logs : List String
  isError : Bool
  errorMessage : Option String

/-- Outcome of evaluating the user code inside the engine. The engine is an
external collaborator, so its verdict is an oracle: ok with the completion
value converted to JSON, or threw carrying the caught value; none when the
caught value is not an Exception object, some m when it is one with optional
message m (ctx.catch().as_exception() and exc.message() in
src/runtime.rs). -/
inductive EvalOutcome where
  | ok (v : Json) : EvalOutcome
  | threw (exc : Option (Option String)) : EvalOutcome

/-- One engine run: the evaluation outcome together with the console.log
capture in order. -/
structure EvalTrace where
  outcome : EvalOutcome
  logs : List String

/-- Embedding of the result shaping of execute_with_caller (src/runtime.rs):
a successful evaluation keeps its value; a thrown exception yields a null
value, is_error true and the exception message (empty default when the
exception has no message, a fixed text when the caught value is not an
exception). -/
def execute_with_caller_result (trace : EvalTrace) : ExecutionResult :=
  match trace.outcome with
  | .ok v => { value := v, logs := trace.logs, isError := false, errorMessage := none }
  | .threw exc =>
      let errorMsg :=
        match exc with
        | some msgOpt => msgOpt.getD ""
        | none => "Unknown JavaScript error"
      { value := .null, logs := trace.logs, isError := true, errorMessage := some errorMsg }

/-- Exposure mode of the adapter (src/config.rs). -/
inductive CodeModeExposure where
  | ReplaceTools : CodeModeExposure
  | Add : CodeModeExposure

/-- Adapter configuration (src/config.rs). -/
structure CodeModeConfig where
  mode : CodeModeExposure
  toolName : String
  toolDescription : String
  includeTools : Option (List String)

/-- MCP tool descriptor, restricted to the fields the adapter reads. -/
structure Tool where
  name : String
  description : Option String
  inputSchema : List (String × Json)
  outputSchema : Option (List (String × Json))

/-- Embedding of filter_tools (src/proxy.rs and src/wrapper.rs): keep a tool
when its name appears in the allow-list, or everything when no allow-list is
configured. -/
def filter_tools (config : CodeModeConfig) (tools : List Tool) : List Tool :=
  match config.includeTools with
  | some included => tools.filter (fun t => included.any (fun nm => nm == t.name))
  | none => tools

/-- Split a character list at every separator, keeping empty parts, with the
same part structure as str::split on a character class. -/
def splitChars (p : Char → Bool) : List Char → List (List Char)
  | [] => [[]]
  | c :: rest =>
      if p c then [] :: splitChars p rest
      else
        match splitChars p rest with
        | [] => [[c]]
        | g :: gs => (c :: g) :: gs

/-- Embedding of to_pascal_case (src/typescript.rs): split on underscore and
hyphen, upper-case the first character of each part, concatenate. -/
def to_pascal_case (s : String) : String :=
  String.join ((splitChars (fun c => c = '_' || c = '-') s.toList).map (fun part =>
    match part with
    | [] => ""
    | first :: rest => String.mk (first.toUpper :: rest)))

/-- Leading-pattern removal on character lists. -/
def listStrip : List Char → List Char → Option (List Char)
  | [], s => some s
  | p :: ps, c :: cs => if p = c then listStrip ps cs else none
  | _ :: _, [] => none

/-- Leading-pattern removal, mirroring str::strip_prefix. -/
def stripLeading (pre s : String) : Option String :=
  (listStrip pre.toList s.toList).map String.mk

/-- Embedding of json_schema_to_typescript_with_defs (src/typescript.rs),
indexed by fuel: the source recursion has no termination guard, so a result
none means the unfolding is still running after fuel steps; a run that is
none for every fuel corresponds to divergence of the source. -/
def json_schema_to_typescript_with_defs : Nat → Json → Option Json → Option String
  | 0, _, _ => none
  | fuel + 1, schema, defs =>
    match schema with
    | .obj o =>
      match (mapGet o "$ref").bind Json.asStr with
      | some refVal =>
          (match (stripLeading "#/$defs/" refVal).orElse
              (fun _ => stripLeading "#/definitions/" refVal), defs with
           | some defName, some defsVal =>
               (match defsVal.getField defName with
                | some d => json_schema_to_typescript_with_defs fuel d defs
                | none => some "unknown")
           | _, _ => some "unknown")
      | none =>
        match (mapGet o "oneOf").bind Json.asArr with
        | some oneOf =>
            (oneOf.mapM (fun v => json_schema_to_typescript_with_defs fuel v defs)).map
              (String.intercalate " | ")
        | none =>
          match (mapGet o "anyOf").bind Json.asArr with
          | some anyOf =>
              (anyOf.mapM (fun v => json_schema_to_typescript_with_defs fuel v defs)).map
                (String.intercalate " | ")
          | none =>
            match mapGet o "type" with
            | some typeVal =>
              (match typeVal.asStr with
               | some "string" => some "string"
               | some "number" => some "number"
               | some "integer" => some "number"
               | some "boolean" => some "boolean"
               | some "null" => some "null"
               | some "array" =>
                   (match mapGet o "items" with
                    | some items =>
                        (json_schema_to_typescript_with_defs fuel items defs).map
                          (fun t => t ++ "[]")
                    | none => some "unknown")
               | some "object" =>
                   (match (mapGet o "properties").bind Json.asObj with
                    | some props =>
                        let required :=
                          (((mapGet o "required").bind Json.asArr).map
                            (fun xs => xs.filterMap Json.asStr)).getD []
                        (props.mapM (fun p =>
                          (json_schema_to_typescript_with_defs fuel p.snd defs).map
                            (fun tsType =>
                              p.fst ++ (if required.contains p.fst then "" else "?")
                                ++ ": " ++ tsType))).map
                          (fun fields => "\x7b " ++ String.intercalate "; " fields ++ " \x7d")
                    | none => some "Record<string, unknown>")
               | _ => some "unknown")
            | none => some "unknown"
    | _ => some "unknown"
termination_by structural fuel _ _ => fuel

/-- Embedding of json_schema_to_typescript (src/typescript.rs): extract local
definitions from the root schema and translate with them in scope. -/
def json_schema_to_typescript (fuel : Nat) (schema : Json) : Option String :=
  let defs := schema.asObj.bind
    (fun o => (mapGet o "$defs").orElse (fun _ => mapGet o "definitions"))
  json_schema_to_typescript_with_defs fuel schema defs

/-- Embedding of generate_params_interface (src/typescript.rs): the interface
block for a tool input schema, empty when properties are absent or empty. -/
def generate_params_interface (fuel : Nat) (schema : List (String × Json))
    (baseName : String) (indent : Nat) : Option String :=
  let iStr := indentStr indent
  let properties := (mapGet schema "properties").bind Json.asObj
  let required :=
    (((mapGet schema "required").bind Json.asArr).map
      (fun xs => xs.filterMap Json.asStr)).getD []
  let defs := (mapGet schema "$defs").orElse (fun _ => mapGet schema "definitions")
  match properties with
  | none => some ""
  | some props =>
    if props.isEmpty then some ""
    else
      (props.mapM (fun p =>
        (json_schema_to_typescript_with_defs fuel p.snd defs).map (fun tsType =>
          let opt := if required.contains p.fst then "" else "?"
          let descLine :=
            match (p.snd.getField "description").bind Json.asStr with
            | some d => iStr ++ "  /** " ++ d ++ " */\n"
            | none => ""
          descLine ++ iStr ++ "  " ++ p.fst ++ opt ++ ": " ++ tsType ++ ";\n"))).map
        (fun lines =>
          iStr ++ "interface " ++ baseName ++ "Params \x7b\n"
            ++ String.join lines ++ iStr ++ "\x7d\n\n")

/-- Embedding of generate_typescript_interface (src/typescript.rs): the full
typed-interface source for a tool catalogue. -/
def generate_typescript_interface (fuel : Nat) (tools : List Tool) (ns : String) :
    Option String :=
  (tools.mapM (fun (tool : Tool) => do
    let interfaceName := to_pascal_case tool.name
    let fnName := String.mk (tool.name.toList.map (fun c => if c = '-' then '_' else c))
    let descLine :=
      match tool.description with
      | some d => "  /** " ++ d ++ " */\n"
      | none => ""
    let paramsType ← generate_params_interface fuel tool.inputSchema interfaceName 1
    let returnType ←
      match tool.outputSchema with
      | some os => json_schema_to_typescript fuel (Json.obj os)
      | none => some "unknown"
    if paramsType ≠ "" then
      pure (descLine ++ paramsType ++ "  function " ++ fnName ++ "(params: "
        ++ interfaceName ++ "Params): " ++ returnType ++ ";\n\n")
    else
      pure (descLine ++ "  function " ++ fnName ++ "(): " ++ returnType ++ ";\n\n"))).map
    (fun bodies =>
      "// Auto-generated TypeScript interface for MCP tools\n"
        ++ "// Do not edit manually\n\n"
        ++ "declare namespace " ++ ns ++ " \x7b\n"
        ++ String.join bodies
        ++ "\x7d\n")

/-- Cached catalogue state of one adapter instance (cached_tools and
cached_ts_interface in src/proxy.rs and src/wrapper.rs). -/
structure AdapterState where
  cachedTools : List Tool
  cachedTsInterface : String

/-- Modelled from the spec: the derived JSON schema of ExecuteCodeParams
(schema_for_type in src/proxy.rs), a single required string property named
code. -/
def executeCodeParamsSchema : List (String × Json) :=
  [("type", Json.str "object"),
   ("properties", Json.obj [("code", Json.obj [("type", Json.str "string")])]),
   ("required", Json.arr [Json.str "code"])]

/-- Embedding of make_execute_tools_tool (src/proxy.rs and src/wrapper.rs):
the execute-code tool descriptor, with the typed interface appended to the
description when one is cached. -/
def make_execute_tools_tool (config : CodeModeConfig) (tsInterface : String) : Tool :=
  { name := config.toolName
  , description := some
      (if tsInterface = "" then config.toolDescription
       else config.toolDescription
         ++ "\n\n## Available Tools (synchronous)\n\n```typescript\n"
         ++ tsInterface
         ++ "\n```\n\n## Notes\n\n- All tool calls are **synchronous** (no async/await needed)\n- Use `console.log(value)` to debug - logs are returned in the result")
  , inputSchema := executeCodeParamsSchema
  , outputSchema := none }

/-- Embedding of list_tools (src/proxy.rs, identical logic in
src/wrapper.rs): the downstream answer is an oracle argument; on success the
filtered list and its transducer output replace both caches, and the reply is
the filtered list (Add) or nothing (ReplaceTools) followed by the
execute-code descriptor. The outer Option is the transducer fuel: none means
the transducer is still recursing, never that the source returns. -/
def list_tools (fuel : Nat) (config : CodeModeConfig) (st : AdapterState)
    (downstream : Except String (List Tool)) :
    Option (Except String (AdapterState × List Tool)) :=
  match downstream with
  | .error e => some (.error ("Downstream error: " ++ e))
  | .ok downstreamTools =>
    let innerTools := filter_tools config downstreamTools
    match generate_typescript_interface fuel innerTools "tools" with
    | none => none
    | some iface =>
      let st' : AdapterState := { cachedTools := innerTools, cachedTsInterface := iface }
      let base : List Tool :=
        match config.mode with
        | .ReplaceTools => []
        | .Add => innerTools
      some (.ok (st', base ++ [make_execute_tools_tool config iface]))

/-- Embedding of ensure_tools_cached (src/proxy.rs and src/wrapper.rs): a
non-empty cache is returned untouched; an empty cache triggers a downstream
list_tools and populates both caches. The boolean records whether a
downstream fetch was issued. -/
def ensure_tools_cached (fuel : Nat) (config : CodeModeConfig) (st : AdapterState)
    (downstream : Except String (List Tool)) :
    Option (Except String (AdapterState × Bool)) :=
  if st.cachedTools.isEmpty then
    match downstream with
    | .error e => some (.error ("Downstream error: " ++ e))
    | .ok downstreamTools =>
      let innerTools := filter_tools config downstreamTools
      match generate_typescript_interface fuel innerTools "tools" with
      | none => none
      | some iface =>
          some (.ok ({ cachedTools := innerTools, cachedTsInterface := iface }, true))
  else
    some (.ok (st, false))

/-- Tool names handed to the script runtime by execute_code (src/proxy.rs and
src/wrapper.rs): the names of the cached tools after ensure_tools_cached. -/
def execute_code_tool_names (fuel : Nat) (config : CodeModeConfig) (st : AdapterState)
    (downstream : Except String (List Tool)) :
    Option (Except String (AdapterState × List String)) :=
  match ensure_tools_cached fuel config st downstream with
  | none => none
  | some (.error e) => some (.error e)
  | some (.ok (st', _)) => some (.ok (st', st'.cachedTools.map (fun t => t.name)))

/-- Embedding of the execute-code response construction in call_tool
(src/proxy.rs): logs wrap the value when present; an error run yields the
pretty-printed error payload and sets the is_error flag. -/
def build_execute_response (result : ExecutionResult) : CallToolResult :=
  let responseValue :=
    if result.logs.isEmpty then result.value
    else Json.obj [("result", result.value), ("logs", Json.arr (result.logs.map Json.str))]
  let contentText :=
    if result.isError then
      jsonPretty (Json.obj
        [("error", Json.str (result.errorMessage.getD "Unknown error")),
         ("logs", Json.arr (result.logs.map Json.str))])
    else jsonPretty responseValue
  { content := [ContentItem.text contentText], isError := some result.isError }

/-- MCP tools/call request, restricted to the fields the adapter reads. -/
structure CallToolRequest where
  name : String
  arguments : Option (List (String × Json))

/-- Extraction of the code argument in call_tool (src/proxy.rs and
src/wrapper.rs): arguments.get("code").and_then(as_str). -/
def getCodeArg (req : CallToolRequest) : Option String :=
  (req.arguments.bind (fun args => mapGet args "code")).bind Json.asStr

/-- Embedding of call_tool (src/proxy.rs): a request for the configured tool
name requires a string code argument, lazily populates the cache and wraps
the script execution result; any other name is forwarded downstream
unchanged. The engine run and the forwarded answer are oracle arguments. -/
def call_tool (fuel : Nat) (config : CodeModeConfig) (st : AdapterState)
    (req : CallToolRequest) (downstream : Except String (List Tool))
    (trace : EvalTrace) (forward : Except String CallToolResult) :
    Option (Except String (AdapterState × CallToolResult)) :=
  if req.name == config.toolName then
    match getCodeArg req with
    | none => some (.error "Missing \x27code\x27 parameter")
    | some _ =>
      match ensure_tools_cached fuel config st downstream with
      | none => none
      | some (.error e) => some (.error e)
      | some (.ok (st', _)) =>
          some (.ok (st', build_execute_response (execute_with_caller_result trace)))
  else
    match forward with
    | .error e => some (.error ("Downstream error: " ++ e))
    | .ok r => some (.ok (st, r))


/-- Helper: when the mapped content is not a lone JSON string, the formatter
serializes the whole mapped array. -/
theorem format_call_result_arr (r : CallToolResult)
    (h : ∀ s, r.content.map contentItemJson ≠ [Json.str s]) :
    format_call_result r = jsonCompact (Json.arr (r.content.map contentItemJson)) := by
  unfold format_call_result
  split
  · rename_i s heq
    exact absurd heq (h s)
  · rfl

/-- Helper: filter_tools with a configured allow-list is a plain list filter. -/
theorem filter_tools_some (mode : CodeModeExposure) (nm desc : String)
    (S : List String) (L : List Tool) :
    filter_tools ⟨mode, nm, desc, some S⟩ L
      = L.filter (fun t => S.any (fun nm2 => nm2 == t.name)) := rfl

/-- C7: with includeTools = S the returned downstream-tool list equals the
downstream list restricted to names in S preserving order, and applying the
same filter a second time is a no-op. -/
theorem claim_C7_filter_idempotence (mode : CodeModeExposure) (nm desc : String)
    (S : List String) (L : List Tool) :
    filter_tools ⟨mode, nm, desc, some S⟩ L = L.filter (fun t => decide (t.name ∈ S)) ∧
    filter_tools ⟨mode, nm, desc, some S⟩ (filter_tools ⟨mode, nm, desc, some S⟩ L) =
      filter_tools ⟨mode, nm, desc, some S⟩ L := by
  have hpt : ∀ t : Tool, (S.any fun nm2 => nm2 == t.name) = decide (t.name ∈ S) := by
    intro t
    rw [Bool.eq_iff_iff]
    simp only [List.any_eq_true, beq_iff_eq, decide_eq_true_eq]
    constructor
    · rintro ⟨x, hx, he⟩
      exact he ▸ hx
    · intro h
      exact ⟨t.name, h, rfl⟩
  constructor
  · rw [filter_tools_some]
    exact List.filter_congr (fun t _ => hpt t)
  · simp only [filter_tools_some]
    rw [List.filter_filter]
    exact List.filter_congr (fun t _ => by simp)

/-- Schema with a self-referential local definition: the Loop definition is a
reference to itself. -/
def cyclicLoopDefs : Json :=
  Json.obj [("Loop", Json.obj [("$ref", Json.str "#/$defs/Loop")])]

/-- Reference into the self-referential definition. -/
def cyclicLoopSchema : Json := Json.obj [("$ref", Json.str "#/$defs/Loop")]

/-- C8: the transducer is not total — on a schema whose definition references
itself the resolution step reproduces the same schema, so the recursion never
terminates: the fuel-indexed unfolding is exhausted at every fuel bound,
instead of degrading to the type string unknown as the specification
requires. -/
theorem claim_C8_cyclic_ref_diverges (fuel : Nat) :
    json_schema_to_typescript_with_defs fuel cyclicLoopSchema (some cyclicLoopDefs) = none := by
  induction fuel with
  | zero => rfl
  | succ n ih =>
      have hstep :
          json_schema_to_typescript_with_defs (n + 1) cyclicLoopSchema (some cyclicLoopDefs)
            = json_schema_to_typescript_with_defs n cyclicLoopSchema (some cyclicLoopDefs) := rfl
      rw [hstep]
      exact ih

/-- C5: a call result whose content is a single text item is formatted as that
text verbatim; any other content list is formatted as the JSON array that
serializes images as typed objects, texts as JSON strings (and anything else
as null). -/
theorem claim_C5_format_single_text_or_array (r : CallToolResult) :
    format_call_result r =
      match r.content with
      | [ContentItem.text s] => s
      | items => jsonCompact (Json.arr (items.map (fun c =>
          match c with
          | ContentItem.text s => Json.str s
          | ContentItem.image d m =>
              Json.obj [("type", Json.str "image"), ("data", Json.str d),
                        ("mimeType", Json.str m)]
          | ContentItem.other => Json.null))) := by
  obtain ⟨content, isErr⟩ := r
  match content with
  | [] => rfl
  | [ContentItem.text s] => rfl
  | [ContentItem.image d m] => rfl
  | [ContentItem.other] => rfl
  | c1 :: c2 :: rest =>
      have hmap : List.map contentItemJson (c1 :: c2 :: rest)
          = List.map (fun c =>
              match c with
              | ContentItem.text s => Json.str s
              | ContentItem.image d m =>
                  Json.obj [("type", Json.str "image"), ("data", Json.str d),
                            ("mimeType", Json.str m)]
              | ContentItem.other => Json.null) (c1 :: c2 :: rest) :=
        List.map_congr_left (fun c _ => by cases c <;> rfl)
      cases c1 <;>
        exact congrArg (fun l => jsonCompact (Json.arr l)) hmap

/-- C10: a content item that is neither text nor image is serialized as JSON
null at its position in the returned array. -/
theorem claim_C10_other_content_is_null (e : Option Bool) (pre post : List ContentItem) :
    format_call_result ⟨pre ++ ContentItem.other :: post, e⟩ =
      jsonCompact (Json.arr
        (pre.map contentItemJson ++ Json.null :: post.map contentItemJson)) := by
  have hmap : (pre ++ ContentItem.other :: post).map contentItemJson
      = pre.map contentItemJson ++ Json.null :: post.map contentItemJson := by
    simp [contentItemJson]
  have hne : ∀ s, (pre ++ ContentItem.other :: post).map contentItemJson ≠ [Json.str s] := by
    intro s hcontr
    rw [hmap] at hcontr
    rcases pre with _ | ⟨p, ps⟩
    · simp at hcontr
    · simp at hcontr
  rw [format_call_result_arr ⟨pre ++ ContentItem.other :: post, e⟩ hne]
  rw [hmap]

/-- Helper: a non-empty cache short-circuits ensure_tools_cached, returning
the state untouched with no downstream fetch. -/
theorem ensure_tools_cached_nonempty (fuel : Nat) (config : CodeModeConfig)
    (st : AdapterState) (d : Except String (List Tool)) (hne : st.cachedTools ≠ []) :
    ensure_tools_cached fuel config st d = some (Except.ok (st, false)) := by
  unfold ensure_tools_cached
  rw [if_neg (fun hh => hne (List.isEmpty_iff.mp hh))]

/-- Helper: with a non-empty cache, any call_tool run that answers leaves the
adapter state unchanged. -/
theorem call_tool_state_nonempty (fuel : Nat) (config : CodeModeConfig)
    (st : AdapterState) (req : CallToolRequest) (d : Except String (List Tool))
    (trace : EvalTrace) (fwd : Except String CallToolResult)
    (st'' : AdapterState) (r : CallToolResult)
    (hne : st.cachedTools ≠ [])
    (hct : call_tool fuel config st req d trace fwd = some (Except.ok (st'', r))) :
    st'' = st := by
  unfold call_tool at hct
  by_cases hbeq : req.name == config.toolName
  · rw [if_pos hbeq] at hct
    cases hcode : getCodeArg req with
    | none =>
        rw [hcode] at hct
        simp at hct
    | some c =>
        rw [hcode] at hct
        rw [ensure_tools_cached_nonempty fuel config st d hne] at hct
        simp only [Option.some.injEq, Except.ok.injEq, Prod.mk.injEq] at hct
        exact hct.1.symm
  · rw [if_neg hbeq] at hct
    cases fwd with
    | error e => simp at hct
    | ok r0 =>
        simp only [Option.some.injEq, Except.ok.injEq, Prod.mk.injEq] at hct
        exact hct.1.symm

/-- C1: a successful list_tools answers with the filtered downstream tools
followed by the execute-code descriptor in Add mode (length |filtered| + 1),
and with exactly the execute-code descriptor in ReplaceTools mode
(length 1). -/
theorem claim_C1_mode_semantics (fuel : Nat) (config : CodeModeConfig)
    (st st' : AdapterState) (downstreamTools res : List Tool)
    (h : list_tools fuel config st (Except.ok downstreamTools) = some (Except.ok (st', res))) :
    (config.mode = CodeModeExposure.Add →
      res = filter_tools config downstreamTools
          ++ [make_execute_tools_tool config st'.cachedTsInterface] ∧
      res.length = (filter_tools config downstreamTools).length + 1) ∧
    (config.mode = CodeModeExposure.ReplaceTools →
      res = [make_execute_tools_tool config st'.cachedTsInterface] ∧
      res.length = 1) := by
  simp only [list_tools] at h
  cases hgen : generate_typescript_interface fuel (filter_tools config downstreamTools) "tools" with
  | none =>
      rw [hgen] at h
      simp at h
  | some iface =>
      rw [hgen] at h
      constructor
      · intro hmode
        rw [hmode] at h
        simp only [Option.some.injEq, Except.ok.injEq, Prod.mk.injEq] at h
        obtain ⟨hst, hres⟩ := h
        subst hst
        subst hres
        constructor
        · rfl
        · simp
      · intro hmode
        rw [hmode] at h
        simp only [Option.some.injEq, Except.ok.injEq, Prod.mk.injEq] at h
        obtain ⟨hst, hres⟩ := h
        subst hst
        subst hres
        constructor
        · rfl
        · simp

/-- C2: a successful list_tools replaces both caches together — the tool cache
with the filtered downstream list and the interface cache with the transducer
output on it — and afterwards, while the cache is non-empty, no call_tool run
(execute-code or forwarded) modifies the caches in any way, so every
execute-code run before the next list_tools hands the script exactly the
cached (filtered) tool names. -/
theorem claim_C2_cache_coherence (fuel : Nat) (config : CodeModeConfig)
    (st st' : AdapterState) (downstreamTools res : List Tool)
    (h : list_tools fuel config st (Except.ok downstreamTools) = some (Except.ok (st', res))) :
    st'.cachedTools = filter_tools config downstreamTools ∧
    generate_typescript_interface fuel st'.cachedTools "tools" = some st'.cachedTsInterface ∧
    (st'.cachedTools ≠ [] →
      (∀ d, ensure_tools_cached fuel config st' d = some (Except.ok (st', false))) ∧
      (∀ d req trace fwd st'' r,
        call_tool fuel config st' req d trace fwd = some (Except.ok (st'', r)) → st'' = st') ∧
      (∀ d, execute_code_tool_names fuel config st' d
          = some (Except.ok (st', st'.cachedTools.map (fun t => t.name))))) := by
  simp only [list_tools] at h
  cases hgen : generate_typescript_interface fuel (filter_tools config downstreamTools) "tools" with
  | none =>
      rw [hgen] at h
      simp at h
  | some iface =>
      rw [hgen] at h
      simp only [Option.some.injEq, Except.ok.injEq, Prod.mk.injEq] at h
      obtain ⟨hst, hres⟩ := h
      subst hst
      refine ⟨rfl, hgen, ?_⟩
      intro hne
      refine ⟨fun d => ensure_tools_cached_nonempty fuel config _ d hne,
              fun d req trace fwd st'' r hct =>
                call_tool_state_nonempty fuel config _ req d trace fwd st'' r hne hct,
              fun d => ?_⟩
      unfold execute_code_tool_names
      rw [ensure_tools_cached_nonempty fuel config _ d hne]

/-- C9: when the freshly filtered catalogue is empty, the cache behaves
exactly like a never-populated one — ensure_tools_cached is the same function
of the downstream as on a fresh adapter, and every successful cache fill from
an execute-code call issues a downstream fetch. -/
theorem claim_C9_empty_filtered_cache_refetches (fuel : Nat) (config : CodeModeConfig)
    (st st' : AdapterState) (downstreamTools res : List Tool)
    (h : list_tools fuel config st (Except.ok downstreamTools) = some (Except.ok (st', res)))
    (hempty : filter_tools config downstreamTools = []) :
    st'.cachedTools = [] ∧
    (∀ d, ensure_tools_cached fuel config st' d
        = ensure_tools_cached fuel config ⟨[], ""⟩ d) ∧
    (∀ ts st'' b,
      ensure_tools_cached fuel config st' (Except.ok ts) = some (Except.ok (st'', b))
        → b = true) := by
  simp only [list_tools] at h
  cases hgen : generate_typescript_interface fuel (filter_tools config downstreamTools) "tools" with
  | none =>
      rw [hgen] at h
      simp at h
  | some iface =>
      rw [hgen] at h
      simp only [Option.some.injEq, Except.ok.injEq, Prod.mk.injEq] at h
      obtain ⟨hst, hres⟩ := h
      subst hst
      refine ⟨by simpa using hempty, fun d => ?_, fun ts st'' b hens => ?_⟩
      · unfold ensure_tools_cached
        rw [if_pos (by simpa using hempty), if_pos (by simp)]
      · simp only [ensure_tools_cached, hempty] at hens
        cases hgen2 : generate_typescript_interface fuel (filter_tools config ts) "tools" with
        | none =>
            rw [hgen2] at hens
            simp at hens
        | some iface2 =>
            rw [hgen2] at hens
            simp at hens
            exact hens.2

/-- Test configuration in Add mode with no allow-list. -/
def cfgAdd : CodeModeConfig :=
  { mode := CodeModeExposure.Add
  , toolName := "execute_tools"
  , toolDescription := "Execute JavaScript code with access to MCP tools."
  , includeTools := none }

/-- Test configuration in ReplaceTools mode. -/
def cfgReplace : CodeModeConfig :=
  { cfgAdd with mode := CodeModeExposure.ReplaceTools }

/-- Downstream test tool with two required number parameters. -/
def toolAdd : Tool :=
  { name := "add"
  , description := some "Add two numbers"
  , inputSchema :=
      [("type", Json.str "object"),
       ("properties", Json.obj
         [("a", Json.obj [("type", Json.str "number")]),
          ("b", Json.obj [("type", Json.str "number")])]),
       ("required", Json.arr [Json.str "a", Json.str "b"])]
  , outputSchema := none }

/-- Transducer output on the catalogue consisting of toolAdd alone. -/
def ifaceAdd : String :=
  "// Auto-generated TypeScript interface for MCP tools\n// Do not edit manually\n\ndeclare namespace tools \x7b\n  /** Add two numbers */\n  interface AddParams \x7b\n    a: number;\n    b: number;\n  \x7d\n\n  function add(params: AddParams): unknown;\n\n\x7d\n"

/-- Transducer output on the empty catalogue. -/
def ifaceEmpty : String :=
  "// Auto-generated TypeScript interface for MCP tools\n// Do not edit manually\n\ndeclare namespace tools \x7b\n\x7d\n"

/-- C1 witness: a concrete list_tools run in Add mode against one downstream
tool has length two, and a ReplaceTools run has length one. -/
theorem claim_C1_mode_semantics_witness :
    (list_tools 9 cfgAdd ⟨[], ""⟩ (Except.ok [toolAdd])
        = some (Except.ok ((⟨[toolAdd], ifaceAdd⟩ : AdapterState),
            [toolAdd, make_execute_tools_tool cfgAdd ifaceAdd]))) ∧
    [toolAdd, make_execute_tools_tool cfgAdd ifaceAdd].length
        = (filter_tools cfgAdd [toolAdd]).length + 1 ∧
    (list_tools 9 cfgReplace ⟨[], ""⟩ (Except.ok [toolAdd])
        = some (Except.ok ((⟨[toolAdd], ifaceAdd⟩ : AdapterState),
            [make_execute_tools_tool cfgReplace ifaceAdd]))) ∧
    [make_execute_tools_tool cfgReplace ifaceAdd].length = 1 :=
  ⟨rfl,
   ((claim_C1_mode_semantics 9 cfgAdd ⟨[], ""⟩ ⟨[toolAdd], ifaceAdd⟩ [toolAdd]
      [toolAdd, make_execute_tools_tool cfgAdd ifaceAdd] rfl).1 rfl).2,
   rfl,
   ((claim_C1_mode_semantics 9 cfgReplace ⟨[], ""⟩ ⟨[toolAdd], ifaceAdd⟩ [toolAdd]
      [make_execute_tools_tool cfgReplace ifaceAdd] rfl).2 rfl).2⟩

/-- C2 witness: after the concrete list_tools run the caches hold the filtered
catalogue and its transducer output, and a subsequent execute-code cache check
returns the state untouched with no downstream fetch. -/
theorem claim_C2_cache_coherence_witness :
    (list_tools 9 cfgAdd ⟨[], ""⟩ (Except.ok [toolAdd])
        = some (Except.ok ((⟨[toolAdd], ifaceAdd⟩ : AdapterState),
            [toolAdd, make_execute_tools_tool cfgAdd ifaceAdd]))) ∧
    (⟨[toolAdd], ifaceAdd⟩ : AdapterState).cachedTools = filter_tools cfgAdd [toolAdd] ∧
    generate_typescript_interface 9 [toolAdd] "tools" = some ifaceAdd ∧
    ensure_tools_cached 9 cfgAdd ⟨[toolAdd], ifaceAdd⟩ (Except.ok [])
        = some (Except.ok ((⟨[toolAdd], ifaceAdd⟩ : AdapterState), false)) ∧
    execute_code_tool_names 9 cfgAdd ⟨[toolAdd], ifaceAdd⟩ (Except.ok [])
        = some (Except.ok ((⟨[toolAdd], ifaceAdd⟩ : AdapterState), ["add"])) :=
  ⟨rfl,
   (claim_C2_cache_coherence 9 cfgAdd ⟨[], ""⟩ ⟨[toolAdd], ifaceAdd⟩ [toolAdd]
      [toolAdd, make_execute_tools_tool cfgAdd ifaceAdd] rfl).1,
   (claim_C2_cache_coherence 9 cfgAdd ⟨[], ""⟩ ⟨[toolAdd], ifaceAdd⟩ [toolAdd]
      [toolAdd, make_execute_tools_tool cfgAdd ifaceAdd] rfl).2.1,
   ((claim_C2_cache_coherence 9 cfgAdd ⟨[], ""⟩ ⟨[toolAdd], ifaceAdd⟩ [toolAdd]
      [toolAdd, make_execute_tools_tool cfgAdd ifaceAdd] rfl).2.2
      (List.cons_ne_nil toolAdd [])).1 (Except.ok []),
   ((claim_C2_cache_coherence 9 cfgAdd ⟨[], ""⟩ ⟨[toolAdd], ifaceAdd⟩ [toolAdd]
      [toolAdd, make_execute_tools_tool cfgAdd ifaceAdd] rfl).2.2
      (List.cons_ne_nil toolAdd [])).2.2 (Except.ok [])⟩

/-- C9 witness: a concrete list_tools run whose filtered catalogue is empty
leaves an empty tool cache that checks the downstream again exactly like a
fresh adapter. -/
theorem claim_C9_empty_filtered_witness :
    (list_tools 9 cfgAdd ⟨[], ""⟩ (Except.ok [])
        = some (Except.ok ((⟨[], ifaceEmpty⟩ : AdapterState),
            [make_execute_tools_tool cfgAdd ifaceEmpty]))) ∧
    (⟨[], ifaceEmpty⟩ : AdapterState).cachedTools = [] ∧
    ensure_tools_cached 9 cfgAdd ⟨[], ifaceEmpty⟩ (Except.ok [toolAdd])
        = ensure_tools_cached 9 cfgAdd ⟨[], ""⟩ (Except.ok [toolAdd]) :=
  ⟨rfl,
   (claim_C9_empty_filtered_cache_refetches 9 cfgAdd ⟨[], ""⟩ ⟨[], ifaceEmpty⟩ []
      [make_execute_tools_tool cfgAdd ifaceEmpty] rfl rfl).1,
   (claim_C9_empty_filtered_cache_refetches 9 cfgAdd ⟨[], ""⟩ ⟨[], ifaceEmpty⟩ []
      [make_execute_tools_tool cfgAdd ifaceEmpty] rfl rfl).2.1 (Except.ok [toolAdd])⟩

/-- C3: a throwing script yields is_error true, a null value and a present
error message, and call_tool still answers with a normal (non-short-circuit)
response whose single text content is the pretty-printed error/logs object and
whose is_error flag is set. -/
theorem claim_C3_error_containment (fuel : Nat) (config : CodeModeConfig)
    (st st' : AdapterState) (req : CallToolRequest) (d : Except String (List Tool))
    (fwd : Except String CallToolResult) (flag : Bool) (code : String)
    (exc : Option (Option String)) (logs : List String)
    (hname : req.name = config.toolName)
    (hcode : getCodeArg req = some code)
    (hens : ensure_tools_cached fuel config st d = some (Except.ok (st', flag))) :
    (execute_with_caller_result ⟨EvalOutcome.threw exc, logs⟩).isError = true ∧
    (execute_with_caller_result ⟨EvalOutcome.threw exc, logs⟩).value = Json.null ∧
    (execute_with_caller_result ⟨EvalOutcome.threw exc, logs⟩).errorMessage ≠ none ∧
    call_tool fuel config st req d ⟨EvalOutcome.threw exc, logs⟩ fwd
      = some (Except.ok (st',
          { content := [ContentItem.text (jsonPretty (Json.obj
              [("error", Json.str
                  ((execute_with_caller_result
                      ⟨EvalOutcome.threw exc, logs⟩).errorMessage.getD "Unknown error")),
               ("logs", Json.arr (logs.map Json.str))]))]
          , isError := some true })) := by
  refine ⟨rfl, rfl, by cases exc <;> simp [execute_with_caller_result], ?_⟩
  simp only [call_tool]
  rw [if_pos (show (req.name == config.toolName) = true by simp [hname])]
  rw [hcode, hens]
  rfl

/-- C6: a successful execute-code run answers with the pretty-printed value
when no logs were captured, and with the pretty-printed result/logs object
(logs in capture order) when logs are present; the is_error flag is false. -/
theorem claim_C6_success_response (fuel : Nat) (config : CodeModeConfig)
    (st st' : AdapterState) (req : CallToolRequest) (d : Except String (List Tool))
    (fwd : Except String CallToolResult) (flag : Bool) (code : String)
    (v : Json) (logs : List String)
    (hname : req.name = config.toolName)
    (hcode : getCodeArg req = some code)
    (hens : ensure_tools_cached fuel config st d = some (Except.ok (st', flag))) :
    (logs = [] →
      call_tool fuel config st req d ⟨EvalOutcome.ok v, logs⟩ fwd
        = some (Except.ok (st',
            { content := [ContentItem.text (jsonPretty v)], isError := some false }))) ∧
    (logs ≠ [] →
      call_tool fuel config st req d ⟨EvalOutcome.ok v, logs⟩ fwd
        = some (Except.ok (st',
            { content := [ContentItem.text (jsonPretty (Json.obj
                [("result", v), ("logs", Json.arr (logs.map Json.str))]))]
            , isError := some false }))) := by
  constructor
  · intro hlogs
    subst hlogs
    simp only [call_tool]
    rw [if_pos (show (req.name == config.toolName) = true by simp [hname])]
    rw [hcode, hens]
    rfl
  · intro hlogs
    cases logs with
    | nil => exact absurd rfl hlogs
    | cons l ls =>
        simp only [call_tool]
        rw [if_pos (show (req.name == config.toolName) = true by simp [hname])]
        rw [hcode, hens]
        rfl

/-- Execute-code request fixture carrying a code argument. -/
def reqExec : CallToolRequest :=
  { name := "execute_tools", arguments := some [("code", Json.str "1 + 2")] }

/-- Adapter state with a populated cache. -/
def stCached : AdapterState := ⟨[toolAdd], ifaceAdd⟩

/-- C3 witness: a concrete throwing run (exception message boom, one captured
log line) is contained in a normal error response. -/
theorem claim_C3_error_containment_witness :
    reqExec.name = cfgAdd.toolName ∧
    getCodeArg reqExec = some "1 + 2" ∧
    ensure_tools_cached 9 cfgAdd stCached (Except.ok [])
      = some (Except.ok (stCached, false)) ∧
    call_tool 9 cfgAdd stCached reqExec (Except.ok [])
        ⟨EvalOutcome.threw (some (some "boom")), ["line1"]⟩ (Except.ok ⟨[], none⟩)
      = some (Except.ok (stCached,
          { content := [ContentItem.text (jsonPretty (Json.obj
              [("error", Json.str "boom"),
               ("logs", Json.arr [Json.str "line1"])]))]
          , isError := some true })) :=
  ⟨rfl, rfl, rfl,
   (claim_C3_error_containment 9 cfgAdd stCached stCached reqExec (Except.ok [])
      (Except.ok ⟨[], none⟩) false "1 + 2" (some (some "boom")) ["line1"]
      rfl rfl rfl).2.2.2⟩

/-- C6 witness: a concrete successful run with value done and one log line is
wrapped into the result/logs object, and one with no logs is returned bare. -/
theorem claim_C6_success_response_witness :
    (call_tool 9 cfgAdd stCached reqExec (Except.ok [])
        ⟨EvalOutcome.ok (Json.str "done"), ["debug"]⟩ (Except.ok ⟨[], none⟩)
      = some (Except.ok (stCached,
          { content := [ContentItem.text (jsonPretty (Json.obj
              [("result", Json.str "done"), ("logs", Json.arr [Json.str "debug"])]))]
          , isError := some false }))) ∧
    (call_tool 9 cfgAdd stCached reqExec (Except.ok [])
        ⟨EvalOutcome.ok (Json.num 3), []⟩ (Except.ok ⟨[], none⟩)
      = some (Except.ok (stCached,
          { content := [ContentItem.text (jsonPretty (Json.num 3))]
          , isError := some false }))) :=
  ⟨(claim_C6_success_response 9 cfgAdd stCached stCached reqExec (Except.ok [])
      (Except.ok ⟨[], none⟩) false "1 + 2" (Json.str "done") ["debug"]
      rfl rfl rfl).2 (List.cons_ne_nil "debug" []),
   (claim_C6_success_response 9 cfgAdd stCached stCached reqExec (Except.ok [])
      (Except.ok ⟨[], none⟩) false "1 + 2" (Json.num 3) []
      rfl rfl rfl).1 rfl⟩

/-- Helper: ECMAScript string coercion is the identity on strings. -/
theorem jsToString_str (s : String) : jsToString (Json.str s) = s := by
  simp [jsToString]

/-- C4 counterexample: a failing caller with the empty message produces the
raw string whose JSON parse is an object carrying an error property, yet the
facade returns that object to the script instead of throwing, because the
empty-string property is falsy. -/
theorem claim_C4_error_facade_counterexample :
    rawToolCall (Except.error "") = "\x7b\"error\": \"\"\x7d" ∧
    jsParse "\x7b\"error\": \"\"\x7d" = some (Json.obj [("error", Json.str "")]) ∧
    toolsFacadeResult "get_items" (rawToolCall (Except.error ""))
      = FacadeOutcome.ret (Json.obj [("error", Json.str "")]) :=
  ⟨rfl, rfl, rfl⟩

/-- C4 amended: the native function returns exactly the interpolated error
object string; the facade throws precisely when the parsed result is an
object whose error property is truthy (not merely present); and a caller
failure whose message survives JSON.parse and is non-empty surfaces as the
Tool-failed exception with that message. -/
theorem claim_C4_error_bridge_amended (toolName msg : String) :
    rawToolCall (Except.error msg) = "\x7b\"error\": \"" ++ msg ++ "\"\x7d" ∧
    (∀ raw : String,
      (∃ m, toolsFacadeResult toolName raw = FacadeOutcome.thrown m) ↔
      (∃ fields, jsParse raw = some (Json.obj fields) ∧
        jsTruthy ((fields.find? (fun p => p.fst == "error")).map (fun p => p.snd)) = true)) ∧
    (jsParse ("\x7b\"error\": \"" ++ msg ++ "\"\x7d") = some (Json.obj [("error", Json.str msg)]) →
      msg ≠ "" →
      toolsFacadeResult toolName (rawToolCall (Except.error msg))
        = FacadeOutcome.thrown ("Tool " ++ toolName ++ " failed: " ++ msg)) := by
  refine ⟨rfl, fun raw => ?_, fun hparse hmsg => ?_⟩
  · cases hp : jsParse raw with
    | none => simp [toolsFacadeResult, hp]
    | some v =>
        cases v with
        | obj fields =>
            cases hf : (fields.find? (fun p => p.fst == "error")).map (fun p => p.snd) with
            | none => simp [toolsFacadeResult, hp, hf, jsTruthy]
            | some errVal =>
                by_cases ht : jsTruthy (some errVal) = true
                · simp [toolsFacadeResult, hp, hf, ht]
                · simp [toolsFacadeResult, hp, hf, ht]
        | null => simp [toolsFacadeResult, hp]
        | bool b => simp [toolsFacadeResult, hp]
        | num n => simp [toolsFacadeResult, hp]
        | str s => simp [toolsFacadeResult, hp]
        | arr xs => simp [toolsFacadeResult, hp]
  · have hraw : rawToolCall (Except.error msg) = "\x7b\"error\": \"" ++ msg ++ "\"\x7d" := rfl
    rw [hraw]
    simp only [toolsFacadeResult, hparse]
    have hfind : (([("error", Json.str msg)].find? (fun p => p.fst == "error")).map
        (fun p => p.snd)) = some (Json.str msg) := rfl
    rw [hfind]
    have htr : jsTruthy (some (Json.str msg)) = true := by
      simp [jsTruthy, hmsg]
    simp [htr, jsToString_str]

/-- C4 witness: a non-empty, escape-free caller failure message does surface
as the Tool-failed exception. -/
theorem claim_C4_error_bridge_witness :
    jsParse ("\x7b\"error\": \"" ++ "boom" ++ "\"\x7d")
      = some (Json.obj [("error", Json.str "boom")]) ∧
    ("boom" : String) ≠ "" ∧
    toolsFacadeResult "get_items" (rawToolCall (Except.error "boom"))
      = FacadeOutcome.thrown ("Tool " ++ "get_items" ++ " failed: " ++ "boom") :=
  ⟨rfl, by decide,
   (claim_C4_error_bridge_amended "get_items" "boom").2.2 rfl (by decide)⟩
